import Mathlib

/-!
Verification of the session engine of `mq-template.cpp` (the `mq` utility).

The development shallowly embeds the command handlers and the receive engine
of the source file.  External effects (the POSIX queue, `write`, input
parsing, locks) are modelled by passing their outcomes explicitly and by
recording event traces; machine integers are modelled as `Nat`/`Int` with the
LP64 numeric ranges of the source's target platform (32-bit `unsigned`,
64-bit `ssize_t`).
-/

namespace Mq

/-! ### Platform numeric ranges (LP64, as assumed by the source) -/

/-- `std::numeric_limits<unsigned>::digits10` for a 32-bit `unsigned`. -/
def unsignedDigits10 : Nat := 9

/-- `std::numeric_limits<ssize_t>::digits10` for a 64-bit `ssize_t`. -/
def ssizeDigits10 : Nat := 18

/-- Largest value of a 32-bit `unsigned` (the type of a message priority). -/
def unsignedMax : Nat := 2 ^ 32 - 1

/-- Largest value of a 64-bit `ssize_t` (the type of a message size). -/
def ssizeMax : Nat := 2 ^ 63 - 1

/-! ### The receive buffer layout arithmetic of `doReceive` -/

/-- `numbersMaxSize` from `doReceive`: the room reserved at the front of the
receive buffer for the `"<priority> <size> "` text, computed from `digits10`
of the two integer types plus a separating space, a slot for a minus sign,
and the null terminator that later becomes a space. -/
def numbersMaxSize : Nat :=
  unsignedDigits10 + 1 + 1 + ssizeDigits10 + 1

/-- The local `sizeBase10` functor of `doReceive`, restricted to the
non-negative inputs it receives there: `floor(1 + log10 n)` digits for
`n > 0` and one digit for `0` (its minus-sign term is zero here). -/
def sizeBase10 (n : Nat) : Nat :=
  if n = 0 then 1 else 1 + Nat.log 10 n

/-- `numbersExpectedSize` from `doReceive`: the exact width predicted for the
prefix, as digit-count of the priority, a space, digit-count of the message
size, and the null terminator. -/
def numbersExpectedSize (priority msgSize : Nat) : Nat :=
  sizeBase10 priority + 1 + sizeBase10 msgSize + 1

/-- Little-endian decimal digits of `n`, with explicit fuel so that the
definition is structurally recursive (20 digits of fuel cover every value of
a 64-bit integer). -/
def digitsRevAux : Nat → Nat → List Nat
  | 0, _ => []
  | fuel + 1, n => if n = 0 then [] else n % 10 :: digitsRevAux fuel (n / 10)

/-- The number of characters `snprintf` uses to print `n` with `%u`/`%lld`
(for the non-negative values that occur in `doReceive`). -/
def decWidth (n : Nat) : Nat :=
  if n = 0 then 1 else (digitsRevAux 20 n).length

/-- `numbersSize` from `doReceive`: the width measured from the `snprintf`
call that actually formats `"<priority> <size>"`, plus one for the null
terminator (`snprintf`'s return value does not count it). -/
def numbersSize (priority msgSize : Nat) : Nat :=
  decWidth priority + 1 + decWidth msgSize + 1

/-- `numbersBegin - bufferBegin` as an integer: where the prefix write starts
relative to the allocated buffer.  Negative means the write begins before the
buffer. -/
def numbersBeginOffset (priority msgSize : Nat) : Int :=
  (numbersMaxSize : Int) - (numbersExpectedSize priority msgSize : Int)

/-- The size of the one region allocated per `doReceive` call:
max prefix room, plus the configured max message size, plus the newline. -/
def receiveBufferSize (msgsize : Nat) : Nat :=
  numbersMaxSize + msgsize + 1

theorem digitsRevAux_zero (fuel : Nat) : digitsRevAux fuel 0 = [] := by
  cases fuel <;> simp [digitsRevAux]

theorem digitsRevAux_length {fuel n : Nat} (hn : 0 < n) (h : n < 10 ^ fuel) :
    (digitsRevAux fuel n).length = Nat.log 10 n + 1 := by
  induction fuel generalizing n with
  | zero => simp at h; omega
  | succ f ih =>
    have hn' : n ≠ 0 := Nat.pos_iff_ne_zero.mp hn
    rw [digitsRevAux, if_neg hn']
    by_cases hsmall : n < 10
    · have h10 : n / 10 = 0 := Nat.div_eq_of_lt hsmall
      have hlog : Nat.log 10 n = 0 := Nat.log_eq_zero_iff.mpr (Or.inl hsmall)
      simp [h10, digitsRevAux_zero, hlog]
    · push_neg at hsmall
      have hdivpos : 0 < n / 10 := Nat.div_pos hsmall (by norm_num)
      have hdivlt : n / 10 < 10 ^ f := by
        have : n < 10 * 10 ^ f := by
          calc n < 10 ^ (f + 1) := h
          _ = 10 * 10 ^ f := by ring
        exact Nat.div_lt_of_lt_mul this
      have hlen := ih hdivpos hdivlt
      have hlogpos : 0 < Nat.log 10 n := Nat.log_pos (by norm_num) hsmall
      have hlogdiv : Nat.log 10 (n / 10) = Nat.log 10 n - 1 :=
        Nat.log_div_base 10 n
      simp only [List.length_cons, hlen, hlogdiv]
      omega

/-- For every value a 64-bit integer can take, the `snprintf`-measured width
agrees with the `log10`-predicted width: this is the assertion
`numbersSize == numbersExpectedSize` of `doReceive`. -/
theorem decWidth_eq_sizeBase10 {n : Nat} (h : n ≤ ssizeMax) :
    decWidth n = sizeBase10 n := by
  by_cases hn : n = 0
  · simp [decWidth, sizeBase10, hn]
  · have hpos : 0 < n := Nat.pos_of_ne_zero hn
    have hlt : n < 10 ^ 20 := by
      have : n ≤ 2 ^ 63 - 1 := h
      have h2 : (2 : Nat) ^ 63 - 1 < 10 ^ 20 := by norm_num
      omega
    rw [decWidth, if_neg hn, sizeBase10, if_neg hn,
        digitsRevAux_length hpos hlt]
    omega

theorem sizeBase10_le_of_lt_pow {n d : Nat} (hd : 0 < d) (h : n < 10 ^ d) :
    sizeBase10 n ≤ d := by
  by_cases hn : n = 0
  · simp [sizeBase10, hn]; omega
  · rw [sizeBase10, if_neg hn]
    have := Nat.log_lt_of_lt_pow hn h
    omega

/-! ### The receive engine (`doReceive`, `receiveHandler`)

External outcomes are passed in explicitly: `errno` classes of a failed
queue call, the result of each `write` syscall, and whether the buffer
allocation succeeded. -/

/-- The `errno` classes the source distinguishes on a failed queue or
`write` call: `EINTR`, `EBADF`, or any other error number. -/
inductive QErr
  | eintr
  | ebadf
  | other (errno : Nat)
deriving DecidableEq

/-- Outcome of one `write(2)` call: the byte count written, or a failure. -/
inductive WOut
  | wrote (n : Nat)
  | werr (e : QErr)
deriving DecidableEq

/-- Outcome of the single `mq_receive` call of `doReceive`: a message
(priority and payload bytes) or a failure. -/
inductive RecvOutcome
  | ok (priority : Nat) (payload : List Nat)
  | fail (e : QErr)
deriving DecidableEq

/-- The environment one `doReceive` call runs in: whether `buffer.resize`
succeeds, the `mq_receive` outcome, and the outcomes of successive `write`
calls. -/
structure RecvEnv where
  allocOk : Bool
  recv : RecvOutcome
  writes : List WOut
deriving DecidableEq

/-- Result code `FAIL_RECEIVE` of `doReceive`. -/
def FAIL_RECEIVE : Int := 1
/-- Result code `FAIL_WRITE` of `doReceive`. -/
def FAIL_WRITE : Int := 2
/-- Result code `FAIL_ALLOC` of `doReceive`. -/
def FAIL_ALLOC : Int := 3
/-- Result code `FAIL_INTERRUPTED_OR_CLOSED` of `doReceive`. -/
def FAIL_INTERRUPTED_OR_CLOSED : Int := 4

/-- ASCII bytes of `n` printed in decimal, as `snprintf` renders it. -/
def decDigitsBytes (n : Nat) : List Nat :=
  if n = 0 then [48] else (digitsRevAux 20 n).reverse.map (fun d => d + 48)

/-- The contiguous output region `doReceive` assembles in its buffer:
`"<priority> <size> <payload>\n"` (32 is the space byte, 10 the newline). -/
def outputRegion (priority : Nat) (payload : List Nat) : List Nat :=
  decDigitsBytes priority ++ [32] ++ decDigitsBytes payload.length ++ [32] ++
    payload ++ [10]

/-- Result of the `write` loop at the end of `doReceive`: its return code
(`none` when the loop has not terminated within the supplied outcomes), the
bytes actually emitted to stdout, and whether a diagnostic was written. -/
structure WriteRes where
  rc : Option Int
  emitted : List Nat
  diag : Bool
deriving DecidableEq

/-- The `write` loop of `doReceive`, verbatim from the source: the loop
condition is `written != outputSize`; every `write` call passes
`outputBegin` and `outputSize` (never offset by `written`); `EINTR` retries;
any other failure releases the stdout lock, reports, and returns
`FAIL_WRITE`; otherwise `written += rc`. -/
def writeLoop (region : List Nat) : Nat → List WOut → WriteRes
  | written, [] =>
    if written = region.length then ⟨some 0, [], false⟩
    else ⟨none, [], false⟩
  | written, o :: rest =>
    if written = region.length then ⟨some 0, [], false⟩
    else
      match o with
      | .wrote n =>
          let r := writeLoop region (written + n) rest
          ⟨r.rc, region.take n ++ r.emitted, r.diag⟩
      | .werr .eintr => writeLoop region written rest
      | .werr _ => ⟨some FAIL_WRITE, [], true⟩

/-- Result of one `doReceive` call: return code (`none` when its write loop
has not terminated), stdout bytes, and whether a diagnostic was written. -/
structure RecvRes where
  rc : Option Int
  emitted : List Nat
  diag : Bool
deriving DecidableEq

/-- `doReceive` from the source: allocation failure returns `FAIL_ALLOC`;
a dequeue failing with `EINTR` or `EBADF` returns
`FAIL_INTERRUPTED_OR_CLOSED` (no diagnostic); any other dequeue failure is
reported and returns `FAIL_RECEIVE`; on success the formatted region is
pushed through the write loop. -/
def doReceive (env : RecvEnv) : RecvRes :=
  if env.allocOk then
    match env.recv with
    | .fail .eintr => ⟨some FAIL_INTERRUPTED_OR_CLOSED, [], false⟩
    | .fail .ebadf => ⟨some FAIL_INTERRUPTED_OR_CLOSED, [], false⟩
    | .fail (.other _) => ⟨some FAIL_RECEIVE, [], true⟩
    | .ok p payload =>
        let w := writeLoop (outputRegion p payload) 0 env.writes
        ⟨w.rc, w.emitted, w.diag⟩
  else ⟨some FAIL_ALLOC, [], true⟩

/-- `receiveHandler` from the source: call `doReceive` repeatedly; return
its result as soon as it differs from `FAIL_INTERRUPTED_OR_CLOSED`.  The
list supplies one environment per iteration; `none` means every supplied
iteration produced the retry code (the loop is still running). -/
def receiveHandler : List RecvEnv → Option Int
  | [] => none
  | env :: rest =>
    match (doReceive env).rc with
    | none => none
    | some rc =>
        if rc = FAIL_INTERRUPTED_OR_CLOSED then receiveHandler rest
        else some rc

/-- A dequeue that fails with `EBADF` (handle invalidated). -/
def envEbadf : RecvEnv := ⟨true, .fail .ebadf, []⟩

/-- A dequeue returning a priority-3 message `"hi"`, whose 7-byte region
`"3 2 hi\n"` is then written in full by one `write` call. -/
def envOkSmall : RecvEnv := ⟨true, .ok 3 [104, 105], [.wrote 7]⟩

/-- A dequeue failing with an `errno` that is neither `EINTR` nor `EBADF`. -/
def envFailOther : RecvEnv := ⟨true, .fail (.other 13), []⟩

/-- The write loop never produces the retry code
`FAIL_INTERRUPTED_OR_CLOSED`. -/
theorem writeLoop_rc_ne_retry (region : List Nat) (written : Nat)
    (outs : List WOut) :
    (writeLoop region written outs).rc ≠ some FAIL_INTERRUPTED_OR_CLOSED := by
  induction outs generalizing written with
  | nil =>
    by_cases h : written = region.length <;>
      simp [writeLoop, h, FAIL_INTERRUPTED_OR_CLOSED]
  | cons o rest ih =>
    by_cases h : written = region.length
    · simp [writeLoop, h, FAIL_INTERRUPTED_OR_CLOSED]
    · match o with
      | .wrote n => simpa [writeLoop, h] using ih (written + n)
      | .werr .eintr => simpa [writeLoop, h] using ih written
      | .werr .ebadf => simp [writeLoop, h, FAIL_WRITE,
          FAIL_INTERRUPTED_OR_CLOSED]
      | .werr (.other e) => simp [writeLoop, h, FAIL_WRITE,
          FAIL_INTERRUPTED_OR_CLOSED]

/-- C1 counterexample: after a dequeue that fails with handle-invalidated
(`EBADF`), the synchronous `receive` handler does not return that outcome
unchanged — it performs a second dequeue and returns whatever that second
dequeue produces (success here, a hard receive error there), so the
handle-invalidated outcome is retried. -/
theorem receiveHandler_retries_handle_invalidated_cex :
    (doReceive envEbadf).rc = some FAIL_INTERRUPTED_OR_CLOSED ∧
    receiveHandler [envEbadf] = none ∧
    receiveHandler [envEbadf, envOkSmall] = some 0 ∧
    receiveHandler [envEbadf, envFailOther] = some FAIL_RECEIVE := by
  decide

/-- C1 amended: the synchronous `receive` handler retries whenever the
dequeue fails with transient interruption (`EINTR`) or with handle
invalidated (`EBADF`) — `doReceive` folds both into the single retry code —
and returns every other outcome of `doReceive` unchanged. -/
theorem receiveHandler_retry_amended (rest : List RecvEnv) (w : List WOut)
    (e : Nat) (r : RecvOutcome) (p : Nat) (payload : List Nat) :
    receiveHandler (⟨true, .fail .eintr, w⟩ :: rest) = receiveHandler rest ∧
    receiveHandler (⟨true, .fail .ebadf, w⟩ :: rest) = receiveHandler rest ∧
    receiveHandler (⟨true, .fail (.other e), w⟩ :: rest) =
      some FAIL_RECEIVE ∧
    receiveHandler (⟨false, r, w⟩ :: rest) = some FAIL_ALLOC ∧
    receiveHandler (⟨true, .ok p payload, w⟩ :: rest) =
      (doReceive ⟨true, .ok p payload, w⟩).rc := by
  refine ⟨?_, ?_, ?_, ?_, ?_⟩
  · simp [receiveHandler, doReceive]
  · simp [receiveHandler, doReceive]
  · simp [receiveHandler, doReceive, FAIL_RECEIVE, FAIL_INTERRUPTED_OR_CLOSED]
  · simp [receiveHandler, doReceive, FAIL_ALLOC, FAIL_INTERRUPTED_OR_CLOSED]
  · have hne := writeLoop_rc_ne_retry (outputRegion p payload) 0 w
    cases hw : (writeLoop (outputRegion p payload) 0 w).rc with
    | none => simp [receiveHandler, doReceive, hw]
    | some rc =>
        rw [hw] at hne
        have hrc : ¬ rc = FAIL_INTERRUPTED_OR_CLOSED := by
          intro h
          exact hne (by rw [h])
        simp [receiveHandler, doReceive, hw, hrc]

/-- C2: at priority `4294967295` (the largest 32-bit `unsigned`) and message
length `10^18` (within `ssize_t` range, so only reachable with a queue whose
`mq_msgsize` is at least `10^18`), the exact prefix width is 31 while
`numbersMaxSize` is only 30: the `snprintf`-measured width still equals the
predicted width (the assertion holds), but the prefix write begins one byte
before the allocated buffer. -/
theorem numbersMaxSize_undersized_eval :
    (4294967295 : Nat) ≤ unsignedMax ∧ (10 : Nat) ^ 18 ≤ ssizeMax ∧
    numbersMaxSize = 30 ∧
    numbersExpectedSize 4294967295 (10 ^ 18) = 31 ∧
    numbersSize 4294967295 (10 ^ 18) = numbersExpectedSize 4294967295 (10 ^ 18) ∧
    numbersBeginOffset 4294967295 (10 ^ 18) = -1 := by
  have hp : sizeBase10 4294967295 = 10 := by
    rw [sizeBase10, if_neg (by norm_num)]
    rw [show Nat.log 10 4294967295 = 9 from
      Nat.log_eq_of_pow_le_of_lt_pow (by norm_num) (by norm_num)]
  have hs : sizeBase10 (10 ^ 18) = 19 := by
    rw [sizeBase10, if_neg (by norm_num)]
    rw [show Nat.log 10 (10 ^ 18) = 18 from
      Nat.log_eq_of_pow_le_of_lt_pow (by norm_num) (by norm_num)]
  have hexp : numbersExpectedSize 4294967295 (10 ^ 18) = 31 := by
    rw [numbersExpectedSize, hp, hs]
  refine ⟨by norm_num [unsignedMax], by norm_num [ssizeMax], by decide,
    hexp, ?_, ?_⟩
  · have := decWidth_eq_sizeBase10
      (n := 4294967295) (by norm_num [ssizeMax])
    have h2 := decWidth_eq_sizeBase10
      (n := 10 ^ 18) (by norm_num [ssizeMax])
    rw [numbersSize, numbersExpectedSize, this, h2]
  · rw [numbersBeginOffset, hexp]
    decide

/-- The 10-byte region `"3 5 hello\n"` as `doReceive` formats it for a
priority-3 message with payload `"hello"`. -/
def regionHello : List Nat := outputRegion 3 [104, 101, 108, 108, 111]

/-- C3: when the first `write` is partial (3 of 10 bytes), the loop
re-issues the `write` with the full region and the original size instead of
the unwritten remainder, so the emitted bytes contain the first three bytes
twice; and because the `written` counter overshoots the total, the loop's
exit condition `written != outputSize` can never again hold, even after
further complete writes. -/
theorem writeLoop_partial_write_duplicates_eval :
    regionHello.length = 10 ∧
    writeLoop regionHello 0 [.wrote 3, .wrote 10] =
      ⟨none, regionHello.take 3 ++ regionHello, false⟩ ∧
    writeLoop regionHello 0 [.wrote 3, .wrote 10] ≠
      ⟨some 0, regionHello, false⟩ ∧
    (writeLoop regionHello 0 [.wrote 3, .wrote 10, .wrote 10, .wrote 10]).rc =
      none ∧
    writeLoop regionHello 0 [.wrote 10] = ⟨some 0, regionHello, false⟩ ∧
    writeLoop regionHello 0 [.werr .eintr, .wrote 10] =
      ⟨some 0, regionHello, false⟩ ∧
    writeLoop regionHello 0 [.werr (.other 5)] = ⟨some FAIL_WRITE, [], true⟩ := by
  decide

/-! ### The send handler

`sendHandler` reads a priority token, then a size token, then one separator
character, then `size` raw bytes, and enqueues the payload.  Token
readability, the available input bytes, and the outcome of each `mq_send`
call are supplied explicitly. -/

/-- Outcome of one `mq_send` call. -/
inductive EnqOut
  | ok
  | fail (e : QErr)
deriving DecidableEq

/-- The environment one `sendHandler` call runs in.  A `none` token means
the corresponding `std::cin >>` extraction failed; `avail` is the input
byte sequence that follows the separator character. -/
structure SendEnv where
  priorityTok : Option Nat
  sizeTok : Option Int
  avail : List Nat
  enqueue : List EnqOut
deriving DecidableEq

/-- Result of one `sendHandler` call: the return code (`none` when the
`mq_send` retry loop is still running), the number of diagnostic lines, the
number of `mq_send` invocations, the message the queue accepted (if any),
the stdout lines, and how many input bytes after the two tokens were
consumed (separator plus payload). -/
structure SendRes where
  rc : Option Int
  diags : Nat
  sendCalls : Nat
  delivered : Option (Nat × List Nat)
  output : List String
  inputBytesConsumed : Nat
deriving DecidableEq

/-- Result of the `mq_send` retry loop inside `sendHandler`. -/
structure EnqRes where
  rc : Option Int
  diags : Nat
  calls : Nat
  delivered : Option (Nat × List Nat)
deriving DecidableEq

/-- The `mq_send` retry loop of `sendHandler`: `EINTR` is retried, any
other failure is reported and returns code 3, success breaks the loop. -/
def enqueueLoop (p : Nat) (msg : List Nat) : List EnqOut → EnqRes
  | [] => ⟨none, 0, 0, none⟩
  | .ok :: _ => ⟨some 0, 0, 1, some (p, msg)⟩
  | .fail .eintr :: rest =>
      let r := enqueueLoop p msg rest
      ⟨r.rc, r.diags, r.calls + 1, r.delivered⟩
  | .fail .ebadf :: _ => ⟨some 3, 1, 1, none⟩
  | .fail (.other _) :: _ => ⟨some 3, 1, 1, none⟩

/-- The `"ack <size>"` line `sendHandler` prints on success. -/
def ackLine (size : Nat) : String := "ack " ++ toString size

/-- `sendHandler` from the source: code 1 for an unreadable priority, 2 for
an unreadable size, 4 for a negative size (all before the separator is
consumed); then `cin.ignore()` eats one separator byte; a non-zero size
reads that many payload bytes and returns 5 on a short read; then the
enqueue loop runs and, on success, `ack <size>` is printed under the stdout
lock. -/
def sendHandler (env : SendEnv) : SendRes :=
  match env.priorityTok with
  | none => ⟨some 1, 1, 0, none, [], 0⟩
  | some p =>
    match env.sizeTok with
    | none => ⟨some 2, 1, 0, none, [], 0⟩
    | some sz =>
      if sz < 0 then ⟨some 4, 1, 0, none, [], 0⟩
      else
        let size := sz.toNat
        if size ≠ 0 ∧ env.avail.length < size then
          ⟨some 5, 1, 0, none, [], 1 + env.avail.length⟩
        else
          let msg := env.avail.take size
          let r := enqueueLoop p msg env.enqueue
          ⟨r.rc, r.diags, r.calls, r.delivered,
            if r.rc = some 0 then [ackLine size] else [], 1 + size⟩

theorem enqueueLoop_rc_cases (p : Nat) (msg : List Nat) (l : List EnqOut) :
    (enqueueLoop p msg l).rc = none ∨ (enqueueLoop p msg l).rc = some 0 ∨
      (enqueueLoop p msg l).rc = some 3 := by
  induction l with
  | nil => simp [enqueueLoop]
  | cons o rest ih =>
    match o with
    | .ok => simp [enqueueLoop]
    | .fail .eintr => simpa [enqueueLoop] using ih
    | .fail .ebadf => simp [enqueueLoop]
    | .fail (.other e) => simp [enqueueLoop]

theorem enqueueLoop_eintr_step (p : Nat) (msg : List Nat) (rest : List EnqOut) :
    enqueueLoop p msg (.fail .eintr :: rest) =
      ⟨(enqueueLoop p msg rest).rc, (enqueueLoop p msg rest).diags,
        (enqueueLoop p msg rest).calls + 1,
        (enqueueLoop p msg rest).delivered⟩ := by
  simp [enqueueLoop]

theorem enqueueLoop_eintr_replicate (p : Nat) (msg : List Nat) (n : Nat)
    (rest : List EnqOut) :
    enqueueLoop p msg (List.replicate n (.fail .eintr) ++ rest) =
      ⟨(enqueueLoop p msg rest).rc, (enqueueLoop p msg rest).diags,
        (enqueueLoop p msg rest).calls + n,
        (enqueueLoop p msg rest).delivered⟩ := by
  induction n with
  | zero => simp
  | succ m ih =>
    rw [List.replicate_succ, List.cons_append, enqueueLoop_eintr_step, ih]
    simp
    omega

/-- A `sendHandler` environment with readable tokens whose size equals the
number of available payload bytes (a well-formed `send` command). -/
def validSendEnv (p : Nat) (avail : List Nat) (enq : List EnqOut) : SendEnv :=
  ⟨some p, some (avail.length : Int), avail, enq⟩

theorem sendHandler_valid (p : Nat) (avail : List Nat) (enq : List EnqOut) :
    sendHandler (validSendEnv p avail enq) =
      ⟨(enqueueLoop p avail enq).rc, (enqueueLoop p avail enq).diags,
        (enqueueLoop p avail enq).calls, (enqueueLoop p avail enq).delivered,
        if (enqueueLoop p avail enq).rc = some 0
          then [ackLine avail.length] else [],
        1 + avail.length⟩ := by
  have h1 : ¬ ((avail.length : Int) < 0) := by omega
  have h2 : ((avail.length : Int)).toNat = avail.length := by omega
  simp [validSendEnv, sendHandler, h1, h2]

/-- C7: each malformed-`send` failure reports one diagnostic and returns its
own non-zero code — 1 for an unreadable priority, 2 for an unreadable size,
4 for a negative size, 5 for a short payload read — the enqueue-failure
code is 3, the five codes are pairwise distinct, and `mq_send` is never
invoked (nothing delivered) on any of the four validation-failure paths.
The input `send abc 5 hello` takes the unreadable-priority path. -/
theorem sendHandler_distinct_error_codes (p e k : Nat) (sz : Int)
    (avail : List Nat) (enq : List EnqOut) :
    sendHandler ⟨none, some sz, avail, enq⟩ = ⟨some 1, 1, 0, none, [], 0⟩ ∧
    sendHandler ⟨some p, none, avail, enq⟩ = ⟨some 2, 1, 0, none, [], 0⟩ ∧
    sendHandler ⟨some p, some (-((k : Int) + 1)), avail, enq⟩ =
      ⟨some 4, 1, 0, none, [], 0⟩ ∧
    sendHandler ⟨some p, some ((avail.length : Int) + (k : Int) + 1), avail,
        enq⟩ =
      ⟨some 5, 1, 0, none, [], 1 + avail.length⟩ ∧
    sendHandler (validSendEnv p avail [.fail (.other e)]) =
      ⟨some 3, 1, 1, none, [], 1 + avail.length⟩ ∧
    sendHandler ⟨none, some 5, [104, 101, 108, 108, 111], [.ok]⟩ =
      ⟨some 1, 1, 0, none, [], 0⟩ ∧
    ([some 1, some 2, some 4, some 5, some 3] : List (Option Int)).Pairwise
      (fun a b => a ≠ b) := by
  refine ⟨rfl, rfl, ?_, ?_, ?_, rfl, by decide⟩
  · have hneg : (-((k : Int) + 1)) < 0 := by omega
    simp only [sendHandler]
    rw [if_pos hneg]
  · have hpos : ¬ ((avail.length : Int) + (k : Int) + 1 < 0) := by omega
    have htn : ((avail.length : Int) + (k : Int) + 1).toNat =
        avail.length + k + 1 := by omega
    have hsz : avail.length + k + 1 ≠ 0 ∧
        avail.length < avail.length + k + 1 := by omega
    simp only [sendHandler]
    rw [if_neg hpos, htn, if_pos hsz]
  · rw [sendHandler_valid]
    simp [enqueueLoop]

/-- C8: the enqueue loop of `sendHandler` retries `EINTR` outcomes without
surfacing them — any run of transient interruptions leaves the return code,
diagnostics, delivery and output unchanged and only adds retries; while
only `EINTR` outcomes have occurred the handler has not returned and has
printed nothing; the first non-transient outcome decides: success prints
exactly `ack <size>` and returns 0, a non-transient failure reports one
diagnostic and returns the enqueue-failure code 3. -/
theorem sendHandler_enqueue_retry (p e n : Nat) (avail : List Nat)
    (rest : List EnqOut) :
    sendHandler (validSendEnv p avail
        (List.replicate n (.fail .eintr) ++ rest)) =
      { sendHandler (validSendEnv p avail rest) with
          sendCalls := (sendHandler (validSendEnv p avail rest)).sendCalls
            + n } ∧
    sendHandler (validSendEnv p avail (List.replicate n (.fail .eintr))) =
      ⟨none, 0, n, none, [], 1 + avail.length⟩ ∧
    sendHandler (validSendEnv p avail (.ok :: rest)) =
      ⟨some 0, 0, 1, some (p, avail), [ackLine avail.length],
        1 + avail.length⟩ ∧
    sendHandler (validSendEnv p avail (.fail (.other e) :: rest)) =
      ⟨some 3, 1, 1, none, [], 1 + avail.length⟩ ∧
    sendHandler (validSendEnv p avail (.fail .ebadf :: rest)) =
      ⟨some 3, 1, 1, none, [], 1 + avail.length⟩ := by
  refine ⟨?_, ?_, ?_, ?_, ?_⟩
  · rw [sendHandler_valid, sendHandler_valid, enqueueLoop_eintr_replicate]
  · rw [sendHandler_valid]
    have : enqueueLoop p avail (List.replicate n (.fail .eintr)) =
        ⟨none, 0, n, none⟩ := by
      have := enqueueLoop_eintr_replicate p avail n []
      simpa [enqueueLoop] using this
    simp [this]
  · rw [sendHandler_valid]; simp [enqueueLoop]
  · rw [sendHandler_valid]; simp [enqueueLoop]
  · rw [sendHandler_valid]; simp [enqueueLoop]

/-- C10: a `send` whose size token is 0 consumes exactly one input byte
after the tokens (the separator; no payload bytes), can never produce the
short-payload-read code 5, and when the first enqueue outcome is a success
it delivers the empty message at the given priority, invokes `mq_send`
once, and prints exactly `ack 0`. -/
theorem sendHandler_size_zero (p : Nat) (avail : List Nat)
    (enq rest : List EnqOut) :
    (sendHandler ⟨some p, some 0, avail, enq⟩).inputBytesConsumed = 1 ∧
    (sendHandler ⟨some p, some 0, avail, enq⟩).rc ≠ some 5 ∧
    sendHandler ⟨some p, some 0, avail, .ok :: rest⟩ =
      ⟨some 0, 0, 1, some (p, []), [ackLine 0], 1⟩ ∧
    ackLine 0 = "ack 0" := by
  have hred : sendHandler ⟨some p, some 0, avail, enq⟩ =
      ⟨(enqueueLoop p [] enq).rc, (enqueueLoop p [] enq).diags,
        (enqueueLoop p [] enq).calls, (enqueueLoop p [] enq).delivered,
        if (enqueueLoop p [] enq).rc = some 0 then [ackLine 0] else [],
        1⟩ := by
    simp [sendHandler]
  refine ⟨by rw [hred], ?_, ?_, rfl⟩
  · rw [hred]
    rcases enqueueLoop_rc_cases p [] enq with h | h | h <;> simp [h]
  · have hred2 : sendHandler ⟨some p, some 0, avail, .ok :: rest⟩ =
        ⟨(enqueueLoop p [] (.ok :: rest)).rc,
          (enqueueLoop p [] (.ok :: rest)).diags,
          (enqueueLoop p [] (.ok :: rest)).calls,
          (enqueueLoop p [] (.ok :: rest)).delivered,
          if (enqueueLoop p [] (.ok :: rest)).rc = some 0
            then [ackLine 0] else [],
          1⟩ := by
      simp [sendHandler]
    rw [hred2]
    simp [enqueueLoop]

/-! ### The attribute handlers (`count`, `msgsize`, `maxmsg`) -/

/-- The queue attributes returned by `mq_getattr`. -/
structure MqAttr where
  mq_maxmsg : Int
  mq_msgsize : Int
  mq_curmsgs : Int
deriving DecidableEq

/-- Result of one attribute handler: return code, diagnostic-line count,
stdout lines. -/
structure AttrRes where
  rc : Int
  diags : Nat
  output : List String
deriving DecidableEq

/-- `countHandler` from the source: a non-zero `mq_getattr` result is
reported and returned; otherwise `count <mq_curmsgs>` is printed under the
stdout lock. -/
def countHandler (getattrRc : Int) (attributes : MqAttr) : AttrRes :=
  if getattrRc ≠ 0 then ⟨getattrRc, 1, []⟩
  else ⟨0, 0, ["count " ++ toString attributes.mq_curmsgs]⟩

/-- `msgsizeHandler` from the source: like `countHandler`, printing
`msgsize <mq_msgsize>`. -/
def msgsizeHandler (getattrRc : Int) (attributes : MqAttr) : AttrRes :=
  if getattrRc ≠ 0 then ⟨getattrRc, 1, []⟩
  else ⟨0, 0, ["msgsize " ++ toString attributes.mq_msgsize]⟩

/-- `maxmsgHandler` from the source: like `countHandler`, printing
`maxmsg <mq_maxmsg>`. -/
def maxmsgHandler (getattrRc : Int) (attributes : MqAttr) : AttrRes :=
  if getattrRc ≠ 0 then ⟨getattrRc, 1, []⟩
  else ⟨0, 0, ["maxmsg " ++ toString attributes.mq_maxmsg]⟩

/-- C9: when the attribute query fails each of the three handlers reports
one diagnostic and returns the query's error result unchanged; on success
each writes exactly one line — `count <N>` with the current pending count,
`msgsize <N>` with the configured max message size, `maxmsg <N>` with the
configured max pending count — and returns 0. -/
theorem attr_handlers_report_or_print (getattrRc : Int) (a : MqAttr)
    (h : getattrRc ≠ 0) :
    countHandler getattrRc a = ⟨getattrRc, 1, []⟩ ∧
    msgsizeHandler getattrRc a = ⟨getattrRc, 1, []⟩ ∧
    maxmsgHandler getattrRc a = ⟨getattrRc, 1, []⟩ ∧
    countHandler 0 a = ⟨0, 0, ["count " ++ toString a.mq_curmsgs]⟩ ∧
    msgsizeHandler 0 a = ⟨0, 0, ["msgsize " ++ toString a.mq_msgsize]⟩ ∧
    maxmsgHandler 0 a = ⟨0, 0, ["maxmsg " ++ toString a.mq_maxmsg]⟩ := by
  refine ⟨?_, ?_, ?_, ?_, ?_, ?_⟩ <;>
    simp [countHandler, msgsizeHandler, maxmsgHandler, h]

/-- Witness for C9 at a concrete failed query (`rc = -1`) and concrete
attributes. -/
theorem attr_handlers_report_or_print_witness :
    countHandler (-1) ⟨10, 8192, 3⟩ = ⟨-1, 1, []⟩ ∧
    maxmsgHandler 0 ⟨10, 8192, 3⟩ =
      ⟨0, 0, ["maxmsg " ++ toString (10 : Int)]⟩ := by
  have h := attr_handlers_report_or_print (-1) ⟨10, 8192, 3⟩ (by decide)
  exact ⟨h.1, h.2.2.2.2.2⟩

/-! ### The close handler -/

/-- The observable steps of one `closeHandler` call, in order. -/
inductive CloseEv
  | acquireStopped
  | setStopped
  | closeQueue
  | diagClose
  | signalConsumer
  | releaseStopped
deriving DecidableEq

/-- `a` occurs strictly before `b` in `l` (both by first position). -/
def evBefore (a b : CloseEv) (l : List CloseEv) : Prop :=
  l.indexOf a < l.indexOf b

/-- `closeHandler` from the source: the stopped-flag lock is acquired only
when a consumer thread exists (the fast path skips it); `stopped = true` is
set; `mq_close` runs; a non-zero close result is reported to stderr; if a
consumer thread exists, `SIGUSR1` is delivered to it (its result ignored);
the lock guard releases at scope end; the close result is returned. -/
def closeHandler (consumerThreadExists : Bool) (closeRc : Int) :
    Int × List CloseEv :=
  (closeRc,
    (if consumerThreadExists then [CloseEv.acquireStopped] else []) ++
    [CloseEv.setStopped, CloseEv.closeQueue] ++
    (if closeRc ≠ 0 then [CloseEv.diagClose] else []) ++
    (if consumerThreadExists then [CloseEv.signalConsumer] else []) ++
    (if consumerThreadExists then [CloseEv.releaseStopped] else []))

/-- C6: `closeHandler` sets the shutdown flag before closing the handle (and
while holding the stopped lock whenever a background task exists, the only
case in which the lock is taken), closes the queue exactly once, reports a
close failure to diagnostics without that preventing the wake-up signal to
an existing background task, and returns the close operation's result. -/
theorem closeHandler_shutdown_sequence (closeRc : Int) (h : closeRc ≠ 0)
    (b : Bool) :
    (closeHandler b closeRc).1 = closeRc ∧
    (closeHandler b 0).1 = 0 ∧
    evBefore .setStopped .closeQueue (closeHandler b closeRc).2 ∧
    evBefore .setStopped .closeQueue (closeHandler b 0).2 ∧
    (closeHandler b closeRc).2.count .closeQueue = 1 ∧
    evBefore .acquireStopped .setStopped (closeHandler true closeRc).2 ∧
    evBefore .setStopped .releaseStopped (closeHandler true closeRc).2 ∧
    CloseEv.diagClose ∈ (closeHandler b closeRc).2 ∧
    CloseEv.diagClose ∉ (closeHandler b 0).2 ∧
    CloseEv.signalConsumer ∈ (closeHandler true closeRc).2 ∧
    evBefore .diagClose .signalConsumer (closeHandler true closeRc).2 ∧
    CloseEv.signalConsumer ∈ (closeHandler true 0).2 := by
  have ht : (closeHandler true closeRc).2 =
      [.acquireStopped, .setStopped, .closeQueue, .diagClose,
        .signalConsumer, .releaseStopped] := by
    simp [closeHandler, h]
  have hf : (closeHandler false closeRc).2 =
      [.setStopped, .closeQueue, .diagClose] := by
    simp [closeHandler, h]
  have ht0 : (closeHandler true 0).2 =
      [.acquireStopped, .setStopped, .closeQueue, .signalConsumer,
        .releaseStopped] := by
    simp [closeHandler]
  have hf0 : (closeHandler false 0).2 = [.setStopped, .closeQueue] := by
    simp [closeHandler]
  cases b <;>
    refine ⟨rfl, rfl, ?_, ?_, ?_, ?_, ?_, ?_, ?_, ?_, ?_, ?_⟩ <;>
    simp only [ht, hf, ht0, hf0, evBefore] <;> decide

/-- Witness for C6 at a concrete failing close (`rc = -1`) with a
background task present. -/
theorem closeHandler_shutdown_sequence_witness :
    (closeHandler true (-1)).1 = -1 ∧
    evBefore .setStopped .closeQueue (closeHandler true (-1)).2 ∧
    CloseEv.diagClose ∈ (closeHandler true (-1)).2 ∧
    CloseEv.signalConsumer ∈ (closeHandler true (-1)).2 := by
  have h := closeHandler_shutdown_sequence (-1) (by decide) true
  exact ⟨h.1, h.2.2.1, h.2.2.2.2.2.2.2.1, h.2.2.2.2.2.2.2.2.2.1⟩

/-! ### The command dispatcher (`serve`) -/

/-- A command verb read from input. -/
inductive Verb
  | send
  | receive
  | consume
  | count
  | msgsize
  | maxmsg
  | close
  | unknown (s : String)
deriving DecidableEq

/-- One dispatch iteration: the verb read, together with the result its
handler would return if invoked (handlers' effects are external to the
dispatcher). -/
structure Step where
  verb : Verb
  rc : Int
deriving DecidableEq

/-- Observable events of a `serve` session. -/
inductive SEv
  | handlerRun (v : Verb) (rc : Int)
  | diagUnknown (s : String)
  | closeRun (rc : Int)
deriving DecidableEq

/-- Is this event an invocation of the close handler? -/
def isCloseRun : SEv → Bool
  | .closeRun _ => true
  | _ => false

/-- One `HANDLE_COMMAND` expansion in the loop of `serve`: run the handler;
a non-zero result ends the loop with that result as `commandResult`, a zero
result continues with the rest of the loop (`r`). -/
def handlerStep (v : Verb) (rc : Int) (r : Int × List SEv) : Int × List SEv :=
  if rc ≠ 0 then (rc, [.handlerRun v rc])
  else (r.1, .handlerRun v rc :: r.2)

/-- The `while (std::cin >> chunk)` loop of `serve`: a recognized verb runs
its handler and a non-zero result ends the loop with that result; the
`close` verb ends the loop without running a handler; an unknown verb
writes a diagnostic and ends the loop with result 1; input exhaustion ends
the loop with result 0. -/
def dispatchLoop : List Step → Int × List SEv
  | [] => (0, [])
  | st :: rest =>
    match st.verb with
    | .close => (0, [])
    | .unknown s => (1, [.diagUnknown s])
    | v => handlerStep v st.rc (dispatchLoop rest)

/-- `serve` from the source, after the loop: `closeHandler` runs once and
the session result is `commandResult ? commandResult : closeResult`. -/
def serve (steps : List Step) (closeRc : Int) : Int × List SEv :=
  let r := dispatchLoop steps
  (if r.1 ≠ 0 then r.1 else closeRc, r.2 ++ [.closeRun closeRc])

/-- Modelled from the claim's words: the first non-zero per-command result
of the session, scanning commands until the loop would end — a handler's
non-zero result, or the fixed non-zero result 1 of an unrecognized verb;
`none` when the loop ends (by `close` or exhaustion) with no such result. -/
def firstNonzeroResult : List Step → Option Int
  | [] => none
  | st :: rest =>
    match st.verb with
    | .close => none
    | .unknown _ => some 1
    | _ =>
      if st.rc ≠ 0 then some st.rc else firstNonzeroResult rest

/-- Modelled from the claim's words: the session exit code is the first
non-zero per-command result if one occurred, otherwise the close handler's
result. -/
def sessionExitSpec (steps : List Step) (closeRc : Int) : Int :=
  match firstNonzeroResult steps with
  | some r => r
  | none => closeRc

theorem handlerStep_events {v : Verb} {rc : Int} {r : Int × List SEv}
    (ih : ∀ e ∈ r.2, isCloseRun e = false) :
    ∀ e ∈ (handlerStep v rc r).2, isCloseRun e = false := by
  intro e he
  rw [handlerStep] at he
  by_cases h : rc ≠ 0
  · rw [if_pos h] at he
    simp at he
    subst he
    rfl
  · rw [if_neg h] at he
    simp at he
    rcases he with he | he
    · subst he
      rfl
    · exact ih e he

theorem dispatchLoop_events (steps : List Step) :
    ∀ e ∈ (dispatchLoop steps).2, isCloseRun e = false := by
  induction steps with
  | nil =>
    intro e he
    simp [dispatchLoop] at he
  | cons st rest ih =>
    obtain ⟨v, rc⟩ := st
    cases v
    case close =>
      intro e he
      simp [dispatchLoop] at he
    case unknown s =>
      intro e he
      simp [dispatchLoop] at he
      subst he
      rfl
    all_goals
      intro e he
      simp only [dispatchLoop] at he
      exact handlerStep_events ih e he

theorem handlerStep_fst (v : Verb) (rc : Int) (r : Int × List SEv) :
    (handlerStep v rc r).1 = if rc ≠ 0 then rc else r.1 := by
  rw [handlerStep]
  by_cases h : rc ≠ 0 <;> simp [h]

theorem dispatchLoop_fst (steps : List Step) :
    (dispatchLoop steps).1 = (firstNonzeroResult steps).getD 0 := by
  induction steps with
  | nil => simp [dispatchLoop, firstNonzeroResult]
  | cons st rest ih =>
    obtain ⟨v, rc⟩ := st
    cases v
    case close => simp [dispatchLoop, firstNonzeroResult]
    case unknown s => simp [dispatchLoop, firstNonzeroResult]
    all_goals
      simp only [dispatchLoop, firstNonzeroResult, handlerStep_fst]
      by_cases h : rc ≠ 0
      · simp [h]
      · simp [h, ih]

theorem firstNonzeroResult_ne_zero (steps : List Step) (r : Int)
    (h : firstNonzeroResult steps = some r) : r ≠ 0 := by
  induction steps with
  | nil => simp [firstNonzeroResult] at h
  | cons st rest ih =>
    obtain ⟨v, rc⟩ := st
    cases v
    case close => simp [firstNonzeroResult] at h
    case unknown s =>
      simp [firstNonzeroResult] at h
      omega
    all_goals
      simp only [firstNonzeroResult] at h
      by_cases hrc : rc ≠ 0
      · rw [if_pos hrc] at h
        injection h with h
        omega
      · rw [if_neg hrc] at h
        exact ih h

/-- C4: for every input verb sequence and every possible close-handler
result, the close handler is invoked exactly once per session — whether the
loop ends by the `close` verb, an unrecognized verb, a handler's non-zero
result, or input exhaustion — and the session exit code is the first
non-zero per-command result if one occurred, otherwise the close handler's
result. -/
theorem serve_close_once_exit_code (steps : List Step) (closeRc : Int) :
    (serve steps closeRc).2.countP (fun e => isCloseRun e) = 1 ∧
    (serve steps closeRc).1 = sessionExitSpec steps closeRc := by
  constructor
  · have h0 : (dispatchLoop steps).2.countP (fun e => isCloseRun e) = 0 := by
      rw [List.countP_eq_zero]
      intro a ha
      simp [dispatchLoop_events steps a ha]
    show ((dispatchLoop steps).2 ++ [SEv.closeRun closeRc]).countP
        (fun e => isCloseRun e) = 1
    rw [List.countP_append, h0]
    simp [isCloseRun]
  · show (if (dispatchLoop steps).1 ≠ 0 then (dispatchLoop steps).1
      else closeRc) = sessionExitSpec steps closeRc
    rw [sessionExitSpec, dispatchLoop_fst]
    cases hf : firstNonzeroResult steps with
    | none => simp
    | some r =>
        have hr := firstNonzeroResult_ne_zero steps r hf
        simp [hr]

/-! ### The consume handler and repeated `consume` verbs -/

/-- The background-task bookkeeping of `Shared` that `consumeHandler`
touches, together with counters of externally visible actions. -/
structure ConsumeState where
  consumerThreadExists : Bool
  threadsCreated : Nat
  sigactionCalls : Nat
deriving DecidableEq

/-- `consumeHandler` from the source: it installs the `SIGUSR1` handler via
`sigaction` (unconditionally, on every call), sets
`consumerThreadExists = true`, then calls `pthread_create`; a successful
creation leaves the flag set and a new consumer thread running, a failed
one reports to diagnostics, resets the flag, and returns `pthread_create`'s
result. -/
def consumeHandler (createRc : Int) (st : ConsumeState) :
    Int × ConsumeState :=
  let st1 : ConsumeState :=
    { st with sigactionCalls := st.sigactionCalls + 1,
              consumerThreadExists := true }
  if createRc = 0 then
    (0, { st1 with threadsCreated := st1.threadsCreated + 1 })
  else
    (createRc, { st1 with consumerThreadExists := false })

/-- The dispatch loop restricted to `consume` verbs: after a `consume`
whose handler returns 0 the loop continues, so a later `consume` verb
reaches `consumeHandler` again with no guard in between. -/
def consumeSession : List Int → ConsumeState → ConsumeState
  | [], st => st
  | rc :: rest, st =>
    let r := consumeHandler rc st
    if r.1 = 0 then consumeSession rest r.2 else r.2

/-- The session-start state: no consumer thread, nothing created. -/
def initialConsumeState : ConsumeState := ⟨false, 0, 0⟩

/-- C5 at the failing input: a session that issues `consume` twice (both
thread creations succeeding) creates two background drain tasks and
installs the signal handler twice, where the claim allows at most one task
and one installation; a single `consume` creates exactly one. -/
theorem consume_twice_creates_two_tasks_eval :
    (consumeSession [0, 0] initialConsumeState).threadsCreated = 2 ∧
    (consumeSession [0, 0] initialConsumeState).sigactionCalls = 2 ∧
    (consumeSession [0] initialConsumeState).threadsCreated = 1 ∧
    (consumeSession [0] initialConsumeState).sigactionCalls = 1 := by
  decide

end Mq
